import Mathlib

/-!
Verification of the rights-conflict detection engine of
`contract-intelligence-demo` (`streamlit_app.py`).

The engine operates on one row per contract of a pandas dataframe.  We embed a
row as `RightsRecord`.  A cell holding a Python `None` is embedded as `none`;
the `str(...)` coercion the code applies to cells before comparing renders
`None` as the string `"None"` (`pyStr`).  License dates are pandas timestamps
after `pd.to_datetime(..., errors="coerce")`; we embed a timestamp as an `Int`
and the missing value `NaT` as `none`, with the pandas rule that any order
comparison against `NaT` is `False` (`optLe`).
-/

namespace ContractIntel

/-- Python `str()` coercion of an optional string cell: `None` renders as
the four-character string `"None"`. -/
def pyStr : Option String → String
  | none => "None"
  | some s => s

/-- Python `str.lower()` (ASCII case folding, character by character). -/
def pyLower (s : String) : String := ⟨s.data.map Char.toLower⟩

/-- Python `str.strip()`: drop leading and trailing whitespace. -/
def pyStrip (s : String) : String :=
  ⟨((s.data.dropWhile Char.isWhitespace).reverse.dropWhile Char.isWhitespace).reverse⟩

/-- Pandas-style `<=` on optional timestamps: any comparison involving a
missing date (`NaT`) yields `False`. -/
def optLe : Option Int → Option Int → Bool
  | some a, some b => decide (a ≤ b)
  | _, _ => false

/-- One row of the combined rights dataframe.  `contract` is the `Contract`
column (source filename); the remaining fields are the eight extracted
attributes, `none` standing for Python `None` / `NaT`. -/
structure RightsRecord where
  contract : String
  rightsType : Option String
  territory : Option String
  exclusivity : Option String
  licenseStart : Option Int
  licenseEnd : Option Int
  holdbacks : Option String
  musicClearance : Option String
  options : Option String
deriving DecidableEq

/-- `str(r1["Territory"]).lower() == str(r2["Territory"]).lower()`. -/
def territoryConflict (r1 r2 : RightsRecord) : Bool :=
  pyLower (pyStr r1.territory) == pyLower (pyStr r2.territory)

/-- `pd.notna(r1.start) and pd.notna(r2.start) and r1.start <= r2.end and
r2.start <= r1.end`, with `NaT` comparisons yielding `False`. -/
def dateConflict (r1 r2 : RightsRecord) : Bool :=
  r1.licenseStart.isSome && r2.licenseStart.isSome &&
    optLe r1.licenseStart r2.licenseEnd && optLe r2.licenseStart r1.licenseEnd

/-- `str(r1["Exclusivity"]).lower()=="exclusive" or str(r2["Exclusivity"]).lower()=="exclusive"`. -/
def exclusiveConflict (r1 r2 : RightsRecord) : Bool :=
  (pyLower (pyStr r1.exclusivity) == "exclusive") ||
    (pyLower (pyStr r2.exclusivity) == "exclusive")

/-- The conjunction tested inside the pairwise loop. -/
def conflictCond (r1 r2 : RightsRecord) : Bool :=
  territoryConflict r1 r2 && dateConflict r1 r2 && exclusiveConflict r1 r2

/-- The finding string appended for a qualifying pair:
`f"{r1['Contract']} ↔ {r2['Contract']} (Exclusive overlap in {r1['Territory']})"`. -/
def renderFinding (r1 r2 : RightsRecord) : String :=
  r1.contract ++ " ↔ " ++ r2.contract ++ " (Exclusive overlap in " ++
    pyStr r1.territory ++ ")"

/-- The `for i: for j in range(i+1, n):` double loop, returning the qualifying
pairs in discovery order. -/
def conflictPairs : List RightsRecord → List (RightsRecord × RightsRecord)
  | [] => []
  | r :: rest =>
      ((rest.filter (fun s => conflictCond r s)).map (fun s => (r, s))) ++
        conflictPairs rest

/-- The `conflicts` list of rendered finding strings. -/
def conflicts (rs : List RightsRecord) : List String :=
  (conflictPairs rs).map (fun p => renderFinding p.1 p.2)

/-- Does `needle` start `hay`?  (Character-list version of Python prefix
matching, used to define substring search.) -/
def charsStartWith : List Char → List Char → Bool
  | [], _ => true
  | _ :: _, [] => false
  | a :: n, b :: h => a == b && charsStartWith n h

/-- Does `needle` occur as a contiguous run inside `hay`?  Embeds the Python
substring test `needle in hay`. -/
def charsContain (needle : List Char) : List Char → Bool
  | [] => needle.isEmpty
  | c :: t => charsStartWith needle (c :: t) || charsContain needle t

/-- Python's `needle in hay` on strings. -/
def pyIn (needle hay : String) : Bool :=
  charsContain needle.data hay.data

/-- The three row colors of the legend, abstracted as classification labels:
red = CONFLICT, yellow = HOLDBACK, green = CLEAR. -/
inductive Label where
  | CONFLICT
  | HOLDBACK
  | CLEAR
deriving DecidableEq

/-- `str(row["Holdbacks"]).strip().lower() not in ["none",""]`. -/
def holdbackFlag (r : RightsRecord) : Bool :=
  !(["none", ""].contains (pyLower (pyStrip (pyStr r.holdbacks))))

/-- `any(row["Contract"] in c for c in conflicts)`. -/
def conflictFlag (cs : List String) (r : RightsRecord) : Bool :=
  cs.any (fun c => pyIn r.contract c)

/-- The `highlight` row function, abstracted to the label it paints. -/
def highlightLabel (cs : List String) (r : RightsRecord) : Label :=
  if conflictFlag cs r then .CONFLICT
  else if holdbackFlag r then .HOLDBACK
  else .CLEAR

/-- End-to-end classification of one record of a batch. -/
def classify (rs : List RightsRecord) (r : RightsRecord) : Label :=
  highlightLabel (conflicts rs) r

/-- The four KPI metrics: total contracts; rows with
`str(Exclusivity).lower() == "exclusive"`; rows with
`str(Holdbacks).lower() != "none"` (no strip); number of findings. -/
def summarize (rs : List RightsRecord) (cs : List String) :
    Nat × Nat × Nat × Nat :=
  (rs.length,
   (rs.filter (fun r => pyLower (pyStr r.exclusivity) == "exclusive")).length,
   (rs.filter (fun r => pyLower (pyStr r.holdbacks) != "none")).length,
   cs.length)

/-- Dictionary lookup in a parsed JSON object, embedded as an association
list: the first binding of the key, if any. -/
def lookupField (k : String) (m : List (String × String)) : Option String :=
  (m.find? (fun p => p.1 == k)).map (fun p => p.2)

/-- Building one dataframe row from one contract's parsed JSON object: the
`required_keys` fill turns a missing key into `None`, `df["Contract"]` is the
filename, and `pd.to_datetime(..., errors="coerce")` maps each date cell
through a parser (`parse` below, kept abstract) that yields `none` on
failure instead of raising. -/
def normalizeRow (parse : String → Option Int) (contract : String)
    (m : List (String × String)) : RightsRecord :=
  { contract := contract
    rightsType := lookupField "Rights Type" m
    territory := lookupField "Territory" m
    exclusivity := lookupField "Exclusivity" m
    licenseStart := (lookupField "License Start Date" m).bind parse
    licenseEnd := (lookupField "License End Date" m).bind parse
    holdbacks := lookupField "Holdbacks" m
    musicClearance := lookupField "Music Clearance" m
    options := lookupField "Options" m }

/-- `pd.concat` of the per-contract one-row frames followed by the two
`to_datetime` column coercions: one output row per input contract, in input
order. -/
def normalizeAll (parse : String → Option Int)
    (batch : List (String × List (String × String))) : List RightsRecord :=
  batch.map (fun b => normalizeRow parse b.1 b.2)

/-- Membership of a record in some detected finding pair. -/
def MemberOfFinding (rs : List RightsRecord) (r : RightsRecord) : Prop :=
  ∃ p ∈ conflictPairs rs, p.1 = r ∨ p.2 = r

instance decMemberOfFinding (rs : List RightsRecord) (r : RightsRecord) :
    Decidable (MemberOfFinding rs r) :=
  inferInstanceAs (Decidable (∃ p ∈ conflictPairs rs, p.1 = r ∨ p.2 = r))

/-- The unordered pair of contract ids `(a, b)` is reported by some finding
of the batch. -/
def FindingPair (rs : List RightsRecord) (a b : String) : Prop :=
  ∃ p ∈ conflictPairs rs,
    (p.1.contract = a ∧ p.2.contract = b) ∨ (p.1.contract = b ∧ p.2.contract = a)

/-- The record with every extracted attribute null. -/
def AllNullFields (r : RightsRecord) : Prop :=
  r.territory = none ∧ r.exclusivity = none ∧ r.licenseStart = none ∧
    r.licenseEnd = none ∧ r.holdbacks = none

/-! ### Basic lemmas about the pairwise scan -/

theorem boolEq_of_iff {a b : Bool} (h : a = true ↔ b = true) : a = b := by
  cases a <;> cases b <;> simp_all

/-- Splitting the loop condition into its three conjuncts. -/
theorem conflictCond_eq_true_iff {a b : RightsRecord} :
    conflictCond a b = true ↔
      territoryConflict a b = true ∧ dateConflict a b = true ∧
        exclusiveConflict a b = true := by
  simp [conflictCond, Bool.and_eq_true, and_assoc]

theorem territoryConflict_symm (a b : RightsRecord) :
    territoryConflict a b = territoryConflict b a := by
  apply boolEq_of_iff
  simp only [territoryConflict, beq_iff_eq]
  exact ⟨Eq.symm, Eq.symm⟩

theorem dateConflict_symm (a b : RightsRecord) :
    dateConflict a b = dateConflict b a := by
  apply boolEq_of_iff
  simp only [dateConflict, Bool.and_eq_true]
  constructor
  · rintro ⟨⟨⟨h1, h2⟩, h3⟩, h4⟩
    exact ⟨⟨⟨h2, h1⟩, h4⟩, h3⟩
  · rintro ⟨⟨⟨h1, h2⟩, h3⟩, h4⟩
    exact ⟨⟨⟨h2, h1⟩, h4⟩, h3⟩

theorem exclusiveConflict_symm (a b : RightsRecord) :
    exclusiveConflict a b = exclusiveConflict b a := by
  apply boolEq_of_iff
  simp only [exclusiveConflict, Bool.or_eq_true]
  exact ⟨Or.symm, Or.symm⟩

/-- The loop condition is symmetric in the two records. -/
theorem conflictCond_symm (a b : RightsRecord) :
    conflictCond a b = conflictCond b a := by
  unfold conflictCond
  rw [territoryConflict_symm, dateConflict_symm, exclusiveConflict_symm]

/-- The pair `(a, b)` is produced by the double loop iff the condition holds
and `a` occurs strictly before an occurrence of `b` in the batch. -/
theorem mem_conflictPairs {rs : List RightsRecord} {a b : RightsRecord} :
    (a, b) ∈ conflictPairs rs ↔ conflictCond a b = true ∧ [a, b].Sublist rs := by
  induction rs with
  | nil => simp [conflictPairs]
  | cons r rest ih =>
    simp only [conflictPairs, List.mem_append, List.mem_map, List.mem_filter, ih]
    constructor
    · rintro (⟨s, ⟨hs, hc⟩, heq⟩ | ⟨hc, hsub⟩)
      · obtain ⟨h1, h2⟩ := Prod.mk.injEq _ _ _ _ ▸ heq
        subst h1; subst h2
        exact ⟨hc, List.Sublist.cons₂ _ (List.singleton_sublist.mpr hs)⟩
      · exact ⟨hc, hsub.cons _⟩
    · rintro ⟨hc, hsub⟩
      rcases List.sublist_cons_iff.mp hsub with h | ⟨r', heq, hsub'⟩
      · exact Or.inr ⟨hc, h⟩
      · obtain ⟨h1, h2⟩ := List.cons.injEq _ _ _ _ ▸ heq
        subst h1
        rw [← h2] at hsub'
        exact Or.inl ⟨b, ⟨List.singleton_sublist.mp hsub', hc⟩, rfl⟩

/-- A record in a reported pair satisfies the loop condition with its
partner. -/
theorem cond_of_memberOfFinding {rs : List RightsRecord} {r : RightsRecord}
    (h : MemberOfFinding rs r) :
    ∃ s, conflictCond r s = true ∨ conflictCond s r = true := by
  obtain ⟨⟨p1, p2⟩, hmem, hor⟩ := h
  have hc := (mem_conflictPairs.mp hmem).1
  rcases hor with h1 | h2
  · exact ⟨p2, Or.inl (h1 ▸ hc)⟩
  · exact ⟨p1, Or.inr (h2 ▸ hc)⟩

/-! ### Substring lemmas for the rendered finding strings -/

theorem charsStartWith_append_self (n t : List Char) :
    charsStartWith n (n ++ t) = true := by
  induction n with
  | nil => rfl
  | cons c n ih => simp [charsStartWith, ih]

theorem charsContain_of_startWith (n h : List Char)
    (hs : charsStartWith n h = true) : charsContain n h = true := by
  cases h with
  | nil =>
    cases n with
    | nil => rfl
    | cons c t => simp [charsStartWith] at hs
  | cons c t => simp [charsContain, hs]

theorem charsContain_cons (n t : List Char) (c : Char)
    (h : charsContain n t = true) : charsContain n (c :: t) = true := by
  simp [charsContain, h]

theorem charsContain_append_left (n t p : List Char)
    (h : charsContain n t = true) : charsContain n (p ++ t) = true := by
  induction p with
  | nil => exact h
  | cons c p ih => exact charsContain_cons _ _ _ ih

/-- If the haystack splits as `pre ++ needle ++ post` then the Python
substring test succeeds. -/
theorem pyIn_of_data_split (needle hay : String) (pre post : List Char)
    (hsplit : hay.data = pre ++ (needle.data ++ post)) : pyIn needle hay = true := by
  rw [pyIn, hsplit]
  exact charsContain_append_left _ _ _
    (charsContain_of_startWith _ _ (charsStartWith_append_self _ _))

/-- The first member of a pair occurs in its rendered finding string. -/
theorem pyIn_fst_renderFinding (r1 r2 : RightsRecord) :
    pyIn r1.contract (renderFinding r1 r2) = true := by
  apply pyIn_of_data_split _ _ [] (" ↔ " ++ r2.contract ++
    " (Exclusive overlap in " ++ pyStr r1.territory ++ ")").data
  simp [renderFinding, List.append_assoc]

/-- The second member of a pair occurs in its rendered finding string. -/
theorem pyIn_snd_renderFinding (r1 r2 : RightsRecord) :
    pyIn r2.contract (renderFinding r1 r2) = true := by
  apply pyIn_of_data_split _ _ (r1.contract ++ " ↔ ").data
    (" (Exclusive overlap in " ++ pyStr r1.territory ++ ")").data
  simp [renderFinding, List.append_assoc]

/-! ### Permutation machinery for unordered finding pairs -/

theorem perm_pair_eq {α : Type} {l : List α} {r s : α} (h : l.Perm [r, s]) :
    l = [r, s] ∨ l = [s, r] := by
  have hlen := h.length_eq
  cases l with
  | nil => simp at hlen
  | cons x t =>
    cases t with
    | nil => simp at hlen
    | cons y u =>
      cases u with
      | cons z v => simp [List.length] at hlen
      | nil =>
        have hx : x ∈ ([r, s] : List α) := h.mem_iff.mp (by simp)
        rcases List.mem_pair.mp hx with rfl | rfl
        · have hy := List.perm_singleton.mp h.cons_inv
          obtain ⟨h1, _⟩ := List.cons.injEq _ _ _ _ ▸ hy
          subst h1
          exact Or.inl rfl
        · have h2 : (x :: y :: []).Perm [x, r] :=
            h.trans (List.Perm.swap x r [])
          have hy := List.perm_singleton.mp h2.cons_inv
          obtain ⟨h1, _⟩ := List.cons.injEq _ _ _ _ ▸ hy
          subst h1
          exact Or.inr rfl

/-- A two-element list is a subpermutation of `rs` iff one of its two
orderings is a sublist of `rs`. -/
theorem pair_subperm_iff {α : Type} {r s : α} {rs : List α} :
    [r, s].Subperm rs ↔ ([r, s].Sublist rs ∨ [s, r].Sublist rs) := by
  constructor
  · rintro ⟨l, hperm, hsub⟩
    rcases perm_pair_eq hperm with rfl | rfl
    · exact Or.inl hsub
    · exact Or.inr hsub
  · rintro (h | h)
    · exact h.subperm
    · exact ⟨[s, r], List.Perm.swap r s [], h⟩

/-! ### Characterizations of the three conjuncts -/

theorem optLe_eq_true_iff {x y : Option Int} :
    optLe x y = true ↔ ∃ a b, x = some a ∧ y = some b ∧ a ≤ b := by
  cases x <;> cases y <;> simp [optLe]

theorem pyStr_pyLower_exclusive_iff (o : Option String) :
    (pyLower (pyStr o) = "exclusive") ↔
      ∃ x, o = some x ∧ pyLower x = "exclusive" := by
  cases o with
  | none =>
    simp only [pyStr]
    constructor
    · intro h; exact absurd h (by decide)
    · rintro ⟨x, hx, _⟩; cases hx
  | some x => simp [pyStr]

theorem dateConflict_eq_true_iff {r1 r2 : RightsRecord} :
    dateConflict r1 r2 = true ↔
      r1.licenseStart.isSome = true ∧ r2.licenseStart.isSome = true ∧
        (∃ a b, r1.licenseStart = some a ∧ r2.licenseEnd = some b ∧ a ≤ b) ∧
        (∃ a b, r2.licenseStart = some a ∧ r1.licenseEnd = some b ∧ a ≤ b) := by
  simp only [dateConflict, Bool.and_eq_true, optLe_eq_true_iff, and_assoc]

theorem exclusiveConflict_eq_true_iff {r1 r2 : RightsRecord} :
    exclusiveConflict r1 r2 = true ↔
      ((∃ x, r1.exclusivity = some x ∧ pyLower x = "exclusive") ∨
        (∃ x, r2.exclusivity = some x ∧ pyLower x = "exclusive")) := by
  simp only [exclusiveConflict, Bool.or_eq_true, beq_iff_eq,
    pyStr_pyLower_exclusive_iff]

/-- C1: for a pair of records taken at positions i < j of the batch, both
with non-null territories, a finding is reported iff the territories agree
case-insensitively, both starts are present and the two start/end
inequalities hold (an absent end date failing them), and at least one of the
two records is marked exclusive. -/
theorem c1_pair_finding_iff (rs : List RightsRecord) (r1 r2 : RightsRecord)
    (s1 s2 : String) (hsub : [r1, r2].Sublist rs)
    (h1 : r1.territory = some s1) (h2 : r2.territory = some s2) :
    (r1, r2) ∈ conflictPairs rs ↔
      (pyLower s1 = pyLower s2 ∧
        (r1.licenseStart.isSome = true ∧ r2.licenseStart.isSome = true ∧
          (∃ a b, r1.licenseStart = some a ∧ r2.licenseEnd = some b ∧ a ≤ b) ∧
          (∃ a b, r2.licenseStart = some a ∧ r1.licenseEnd = some b ∧ a ≤ b)) ∧
        ((∃ x, r1.exclusivity = some x ∧ pyLower x = "exclusive") ∨
          (∃ x, r2.exclusivity = some x ∧ pyLower x = "exclusive"))) := by
  rw [mem_conflictPairs]
  simp only [hsub, and_true, conflictCond_eq_true_iff,
    dateConflict_eq_true_iff, exclusiveConflict_eq_true_iff]
  apply and_congr_left
  intro _
  simp [territoryConflict, h1, h2, pyStr]

def c1r1 : RightsRecord :=
  { contract := "C1A", rightsType := none, territory := some "US"
    exclusivity := some "Exclusive", licenseStart := some 0
    licenseEnd := some 10, holdbacks := none, musicClearance := none
    options := none }

def c1r2 : RightsRecord :=
  { contract := "C1B", rightsType := none, territory := some "us"
    exclusivity := some "non-exclusive", licenseStart := some 5
    licenseEnd := some 20, holdbacks := none, musicClearance := none
    options := none }

/-- Witness for C1 at a concrete two-record batch. -/
theorem c1_pair_finding_iff_witness :
    (c1r1, c1r2) ∈ conflictPairs [c1r1, c1r2] :=
  (c1_pair_finding_iff [c1r1, c1r2] c1r1 c1r2 "US" "us"
    (List.Sublist.refl _) rfl rfl).mpr
    ⟨by decide, ⟨rfl, rfl, ⟨0, 20, rfl, rfl, by decide⟩,
      ⟨5, 10, rfl, rfl, by decide⟩⟩, Or.inl ⟨"Exclusive", rfl, by decide⟩⟩

theorem not_mem_conflictPairs_of_cond_false {rs : List RightsRecord}
    {a b : RightsRecord} (h : conflictCond a b = false) :
    (a, b) ∉ conflictPairs rs := by
  intro hmem
  have hc := (mem_conflictPairs.mp hmem).1
  rw [h] at hc
  exact Bool.false_ne_true hc

theorem optLe_none_right {x : Option Int} : optLe x none = false := by
  cases x <;> rfl

/-- C3 (amended): a record with null territory is never reported against a
record whose territory is a non-null string other than (case-insensitively)
"none"; but see the counterexample — two null territories do match. -/
theorem c3_null_territory_amended (rs : List RightsRecord)
    (r1 r2 : RightsRecord) (s : String)
    (h1 : r1.territory = none) (h2 : r2.territory = some s)
    (hs : pyLower s ≠ "none") :
    (r1, r2) ∉ conflictPairs rs ∧ (r2, r1) ∉ conflictPairs rs := by
  have hlow : pyLower (pyStr (none : Option String)) = "none" := by decide
  have ht : territoryConflict r1 r2 = false := by
    simp only [territoryConflict, h1, h2, hlow, beq_eq_false_iff_ne, pyStr]
    exact fun h => hs h.symm
  have ht' : territoryConflict r2 r1 = false := territoryConflict_symm r1 r2 ▸ ht
  constructor
  · exact not_mem_conflictPairs_of_cond_false (by simp [conflictCond, ht])
  · exact not_mem_conflictPairs_of_cond_false (by simp [conflictCond, ht'])

def c3n1 : RightsRecord :=
  { contract := "N1", rightsType := none, territory := none
    exclusivity := some "Exclusive", licenseStart := some 0
    licenseEnd := some 10, holdbacks := none, musicClearance := none
    options := none }

def c3n2 : RightsRecord :=
  { contract := "N2", rightsType := none, territory := none
    exclusivity := none, licenseStart := some 5, licenseEnd := some 20
    holdbacks := none, musicClearance := none, options := none }

/-- Counterexample to C3 as stated: two records whose territories are both
null ARE reported as a conflicting pair (the `str()` coercion makes both
sides "none"), so a null-territory record can appear in a finding. -/
theorem c3_counterexample :
    c3n1.territory = none ∧ c3n2.territory = none ∧
      (c3n1, c3n2) ∈ conflictPairs [c3n1, c3n2] :=
  ⟨rfl, rfl, by decide⟩

/-- Witness for the amended C3 at a concrete input. -/
theorem c3_null_territory_amended_witness :
    (c3n1, c1r2) ∉ conflictPairs [c3n1, c1r2] ∧
      (c1r2, c3n1) ∉ conflictPairs [c3n1, c1r2] :=
  c3_null_territory_amended [c3n1, c1r2] c3n1 c1r2 "us" rfl rfl (by decide)

/-- C5: for a pair with both starts present but either end null, the NaT
comparison evaluates to False (nothing is raised), so the date test fails
and no finding is reported for the pair in either orientation. -/
theorem c5_null_end_no_finding (rs : List RightsRecord)
    (r1 r2 : RightsRecord)
    (_hs1 : r1.licenseStart.isSome = true) (_hs2 : r2.licenseStart.isSome = true)
    (hend : r1.licenseEnd = none ∨ r2.licenseEnd = none) :
    dateConflict r1 r2 = false ∧ (r1, r2) ∉ conflictPairs rs ∧
      (r2, r1) ∉ conflictPairs rs := by
  have hd : dateConflict r1 r2 = false := by
    rcases hend with h | h <;> simp [dateConflict, h, optLe_none_right]
  have hd' : dateConflict r2 r1 = false := dateConflict_symm r1 r2 ▸ hd
  refine ⟨hd, ?_, ?_⟩
  · exact not_mem_conflictPairs_of_cond_false (by simp [conflictCond, hd])
  · exact not_mem_conflictPairs_of_cond_false (by simp [conflictCond, hd'])

def c5r : RightsRecord :=
  { contract := "E1", rightsType := none, territory := some "US"
    exclusivity := some "Exclusive", licenseStart := some 3
    licenseEnd := none, holdbacks := none, musicClearance := none
    options := none }

/-- Witness for C5 at a concrete input. -/
theorem c5_null_end_no_finding_witness :
    dateConflict c5r c1r1 = false ∧ (c5r, c1r1) ∉ conflictPairs [c5r, c1r1] ∧
      (c1r1, c5r) ∉ conflictPairs [c5r, c1r1] :=
  c5_null_end_no_finding [c5r, c1r1] c5r c1r1 rfl rfl (Or.inl rfl)

/-- C4 (amended): the classifier's holdback test is membership of the
trimmed, lower-cased field in {"none", ""} — the value "nan" is NOT
excluded; a record with a null holdback (rendered "none") and no conflict
flag is labeled CLEAR. -/
theorem c4_holdback_rule_amended (cs : List String) (r : RightsRecord) :
    (holdbackFlag r = true ↔
      pyLower (pyStrip (pyStr r.holdbacks)) ∉ (["none", ""] : List String)) ∧
    (r.holdbacks = none → conflictFlag cs r = false →
      highlightLabel cs r = .CLEAR) := by
  constructor
  · simp [holdbackFlag, List.contains, List.elem_eq_mem]
  · intro hh hcf
    have hbf : holdbackFlag r = false := by
      simp only [holdbackFlag, hh]
      decide
    simp [highlightLabel, hcf, hbf]

def c4r : RightsRecord :=
  { contract := "H1", rightsType := none, territory := none
    exclusivity := none, licenseStart := none, licenseEnd := none
    holdbacks := some "nan", musicClearance := none, options := none }

/-- Counterexample to C4 as stated: the trimmed lower-cased holdback "nan"
falls inside the claim's exclusion set {"none","","nan"}, yet the code
labels the (conflict-free) record HOLDBACK, not CLEAR. -/
theorem c4_counterexample :
    pyLower (pyStrip (pyStr c4r.holdbacks)) ∈ (["none", "", "nan"] : List String) ∧
      highlightLabel [] c4r = .HOLDBACK := by
  constructor <;> decide

/-- Witness for the amended C4: a null-holdback record with no conflict flag
is labeled CLEAR. -/
theorem c4_holdback_rule_amended_witness :
    highlightLabel [] c3n2 = Label.CLEAR :=
  (c4_holdback_rule_amended [] c3n2).2 rfl (by decide)

/-- C6 (amended): an all-null record never appears in a finding pair; and
whenever its contract id is not a substring of any rendered finding string
it is classified CLEAR (the counterexample shows the substring proviso is
needed). -/
theorem c6_all_null_amended (rs : List RightsRecord) (r : RightsRecord)
    (h : AllNullFields r) :
    ¬ MemberOfFinding rs r ∧
      (conflictFlag (conflicts rs) r = false → classify rs r = .CLEAR) := by
  obtain ⟨_ht, _he, hls, _hle, hh⟩ := h
  constructor
  · rintro ⟨⟨p1, p2⟩, hmem, hor⟩
    have hc := (mem_conflictPairs.mp hmem).1
    rw [conflictCond_eq_true_iff] at hc
    obtain ⟨-, hd, -⟩ := hc
    rw [dateConflict_eq_true_iff] at hd
    obtain ⟨hd1, hd2, -, -⟩ := hd
    rcases hor with h1 | h2
    · rw [show p1 = r from h1, hls] at hd1
      simp at hd1
    · rw [show p2 = r from h2, hls] at hd2
      simp at hd2
  · intro hcf
    have hbf : holdbackFlag r = false := by
      simp only [holdbackFlag, hh]
      decide
    simp [classify, highlightLabel, hcf, hbf]

def c6m : RightsRecord :=
  { contract := "M", rightsType := none, territory := none
    exclusivity := none, licenseStart := none, licenseEnd := none
    holdbacks := none, musicClearance := none, options := none }

def c6mn : RightsRecord :=
  { contract := "MN", rightsType := none, territory := some "Terra"
    exclusivity := some "Exclusive", licenseStart := some 0
    licenseEnd := some 10, holdbacks := none, musicClearance := none
    options := none }

def c6op : RightsRecord :=
  { contract := "OP", rightsType := none, territory := some "Terra"
    exclusivity := some "Exclusive", licenseStart := some 5
    licenseEnd := some 20, holdbacks := none, musicClearance := none
    options := none }

/-- Counterexample to C6 as stated: the all-null record "M" is in no finding
pair, yet it is classified CONFLICT (not CLEAR) because "M" is a substring
of the finding string "MN ↔ OP (Exclusive overlap in Terra)". -/
theorem c6_counterexample :
    AllNullFields c6m ∧ ¬ MemberOfFinding [c6mn, c6op, c6m] c6m ∧
      classify [c6mn, c6op, c6m] c6m = .CONFLICT :=
  ⟨⟨rfl, rfl, rfl, rfl, rfl⟩, by decide, by decide⟩

/-- Witness for the amended C6 at a concrete input. -/
theorem c6_all_null_amended_witness :
    classify [c1r1, c6m] c6m = Label.CLEAR :=
  (c6_all_null_amended [c1r1, c6m] c6m ⟨rfl, rfl, rfl, rfl, rfl⟩).2 (by decide)

/-- C2 (amended): every record receives exactly one of the three labels with
precedence CONFLICT > HOLDBACK > CLEAR, and membership in a finding pair
forces the label CONFLICT; but the CONFLICT label is equivalent to the
substring-based conflict flag, not to pair membership (the converse of the
claim's "iff" fails, see the counterexample). -/
theorem c2_classification_amended (rs : List RightsRecord) (r : RightsRecord) :
    (MemberOfFinding rs r → classify rs r = .CONFLICT) ∧
    (classify rs r = .CONFLICT ↔ conflictFlag (conflicts rs) r = true) ∧
    (classify rs r = .HOLDBACK ↔
      conflictFlag (conflicts rs) r = false ∧ holdbackFlag r = true) ∧
    (classify rs r = .CLEAR ↔
      conflictFlag (conflicts rs) r = false ∧ holdbackFlag r = false) := by
  refine ⟨?_, ?_⟩
  · rintro ⟨⟨p1, p2⟩, hmem, hor⟩
    have hin : renderFinding p1 p2 ∈ conflicts rs :=
      List.mem_map.mpr ⟨(p1, p2), hmem, rfl⟩
    have hflag : conflictFlag (conflicts rs) r = true := by
      rw [conflictFlag, List.any_eq_true]
      refine ⟨renderFinding p1 p2, hin, ?_⟩
      rcases hor with h1 | h2
      · rw [← h1]; exact pyIn_fst_renderFinding p1 p2
      · rw [← h2]; exact pyIn_snd_renderFinding p1 p2
    simp [classify, highlightLabel, hflag]
  · cases hcf : conflictFlag (conflicts rs) r <;>
      cases hbf : holdbackFlag r <;>
        simp [classify, highlightLabel, hcf, hbf]

def c2ab : RightsRecord :=
  { contract := "AB", rightsType := none, territory := some "Iberia"
    exclusivity := some "Exclusive", licenseStart := some 0
    licenseEnd := some 10, holdbacks := none, musicClearance := none
    options := none }

def c2cd : RightsRecord :=
  { contract := "CD", rightsType := none, territory := some "Iberia"
    exclusivity := some "Exclusive", licenseStart := some 5
    licenseEnd := some 20, holdbacks := none, musicClearance := none
    options := none }

def c2a : RightsRecord :=
  { contract := "A", rightsType := none, territory := none
    exclusivity := none, licenseStart := none, licenseEnd := none
    holdbacks := none, musicClearance := none, options := none }

/-- Counterexample to C2 as stated: record "A" belongs to no finding pair,
yet its label is CONFLICT, because "A" is a substring of the finding string
"AB ↔ CD (Exclusive overlap in Iberia)". -/
theorem c2_counterexample :
    ¬ MemberOfFinding [c2ab, c2cd, c2a] c2a ∧
      classify [c2ab, c2cd, c2a] c2a = .CONFLICT :=
  ⟨by decide, by decide⟩

/-- Witness for the amended C2: a genuine member of a finding pair is
labeled CONFLICT. -/
theorem c2_classification_amended_witness :
    classify [c2ab, c2cd, c2a] c2ab = Label.CONFLICT :=
  (c2_classification_amended [c2ab, c2cd, c2a] c2ab).1
    ⟨(c2ab, c2cd), by decide, Or.inl rfl⟩

def c10x : RightsRecord :=
  { contract := "PQ", rightsType := none, territory := some "Mars"
    exclusivity := some "Exclusive", licenseStart := some 0
    licenseEnd := some 10, holdbacks := none, musicClearance := none
    options := none }

def c10y : RightsRecord :=
  { contract := "RS", rightsType := none, territory := some "Mars"
    exclusivity := some "Exclusive", licenseStart := some 5
    licenseEnd := some 20, holdbacks := none, musicClearance := none
    options := none }

def c10z : RightsRecord :=
  { contract := "P", rightsType := none, territory := none
    exclusivity := none, licenseStart := none, licenseEnd := none
    holdbacks := none, musicClearance := none, options := none }

/-- C10: the classifier's conflict flag is exactly the substring test of the
record's contract id against the rendered finding strings; consequently a
record that is a member of no finding pair can still be labeled CONFLICT,
as the concrete batch ["PQ", "RS", "P"] shows for record "P". -/
theorem c10_substring_conflict :
    (∀ (cs : List String) (r : RightsRecord),
      conflictFlag cs r = true ↔ ∃ c ∈ cs, pyIn r.contract c = true) ∧
    (∃ (rs : List RightsRecord) (r : RightsRecord), r ∈ rs ∧
      ¬ MemberOfFinding rs r ∧ classify rs r = .CONFLICT) := by
  constructor
  · intro cs r
    simp [conflictFlag, List.any_eq_true]
  · exact ⟨[c10x, c10y, c10z], c10z, by decide, by decide, by decide⟩

/-- Spec-side predicate for the second KPI: exclusivity present and
case-insensitively equal to "exclusive". -/
def specExclusive (r : RightsRecord) : Bool :=
  match r.exclusivity with
  | some s => pyLower s == "exclusive"
  | none => false

/-- Spec-side predicate for the third KPI: holdback present and
case-insensitively not equal to "none" (an empty string counts). -/
def specHoldbackCounted (r : RightsRecord) : Bool :=
  match r.holdbacks with
  | some s => pyLower s != "none"
  | none => false

/-- C7: the summary is exactly the four integers — total records, records
marked exclusive (case-insensitively), records whose holdback is
case-insensitively different from "none" (empty string counted), and the
number of findings. -/
theorem c7_summary (rs : List RightsRecord) (cs : List String) :
    summarize rs cs =
      (rs.length, rs.countP specExclusive, rs.countP specHoldbackCounted,
        cs.length) := by
  unfold summarize
  simp only [Prod.mk.injEq]
  refine ⟨trivial, ?_, ?_, trivial⟩
  · rw [List.countP_eq_length_filter]
    apply congrArg List.length
    apply List.filter_congr
    intro r _
    cases hr : r.exclusivity with
    | none => simp only [specExclusive, hr, pyStr]; decide
    | some s => simp [specExclusive, hr, pyStr]
  · rw [List.countP_eq_length_filter]
    apply congrArg List.length
    apply List.filter_congr
    intro r _
    cases hr : r.holdbacks with
    | none => simp only [specHoldbackCounted, hr, pyStr]; decide
    | some s => simp [specHoldbackCounted, hr, pyStr]

/-- C9: normalization is total and shape-preserving — one output row per
input contract in input order; a date cell whose parse fails becomes null
rather than an error; a missing key becomes null rather than an error. -/
theorem c9_normalize_total (parse : String → Option Int)
    (batch : List (String × List (String × String))) :
    (normalizeAll parse batch).length = batch.length ∧
    (∀ i : Nat, (normalizeAll parse batch)[i]? =
      (batch[i]?).map (fun b => normalizeRow parse b.1 b.2)) ∧
    (∀ contract m s, lookupField "License Start Date" m = some s →
      parse s = none → (normalizeRow parse contract m).licenseStart = none) ∧
    (∀ contract m s, lookupField "License End Date" m = some s →
      parse s = none → (normalizeRow parse contract m).licenseEnd = none) ∧
    (∀ contract m, lookupField "License Start Date" m = none →
      (normalizeRow parse contract m).licenseStart = none) ∧
    (∀ contract m, lookupField "Territory" m = none →
      (normalizeRow parse contract m).territory = none) ∧
    (∀ contract m, lookupField "Holdbacks" m = none →
      (normalizeRow parse contract m).holdbacks = none) := by
  refine ⟨by simp [normalizeAll], ?_, ?_, ?_, ?_, ?_, ?_⟩
  · intro i
    simp [normalizeAll]
  · intro contract m s hl hp
    simp [normalizeRow, hl, hp]
  · intro contract m s hl hp
    simp [normalizeRow, hl, hp]
  · intro contract m hl
    simp [normalizeRow, hl]
  · intro contract m hl
    simp [normalizeRow, hl]
  · intro contract m hl
    simp [normalizeRow, hl]

/-- Witness for C9: a one-contract batch with an unparseable date. -/
theorem c9_normalize_total_witness :
    (normalizeAll (fun _ => none)
        [("f.pdf", [("License Start Date", "garbage")])]).length = 1 ∧
      (normalizeRow (fun _ => none) "f.pdf"
        [("License Start Date", "garbage")]).licenseStart = none :=
  ⟨(c9_normalize_total (fun _ => none)
      [("f.pdf", [("License Start Date", "garbage")])]).1,
    (c9_normalize_total (fun _ => none) []).2.2.1 "f.pdf"
      [("License Start Date", "garbage")] "garbage" rfl rfl⟩

/-- C8 (amended): permuting the batch yields the same findings viewed as
unordered contract-id pairs.  (The per-record classification is NOT
preserved — see the counterexample.) -/
theorem c8_perm_findings (rs1 rs2 : List RightsRecord) (h : rs1.Perm rs2) :
    ∀ a b, FindingPair rs1 a b ↔ FindingPair rs2 a b := by
  suffices H : ∀ (l1 l2 : List RightsRecord), l1.Perm l2 →
      ∀ a b, FindingPair l1 a b → FindingPair l2 a b by
    intro a b
    exact ⟨H rs1 rs2 h a b, H rs2 rs1 h.symm a b⟩
  rintro l1 l2 hp a b ⟨⟨p1, p2⟩, hmem, hor⟩
  obtain ⟨hc, hsub⟩ := mem_conflictPairs.mp hmem
  have hsp : [p1, p2].Subperm l2 := (hp.subperm_left).mp hsub.subperm
  rcases pair_subperm_iff.mp hsp with h2 | h2
  · exact ⟨(p1, p2), mem_conflictPairs.mpr ⟨hc, h2⟩, hor⟩
  · refine ⟨(p2, p1),
      mem_conflictPairs.mpr ⟨conflictCond_symm p1 p2 ▸ hc, h2⟩, ?_⟩
    rcases hor with ⟨ha, hb⟩ | ⟨hb, ha⟩
    · exact Or.inr ⟨hb, ha⟩
    · exact Or.inl ⟨ha, hb⟩

def c8x : RightsRecord :=
  { contract := "X", rightsType := none, territory := some "France"
    exclusivity := some "Exclusive", licenseStart := some 0
    licenseEnd := some 10, holdbacks := none, musicClearance := none
    options := none }

def c8y : RightsRecord :=
  { contract := "Y", rightsType := none, territory := some "FRANCE"
    exclusivity := some "Exclusive", licenseStart := some 5
    licenseEnd := some 15, holdbacks := none, musicClearance := none
    options := none }

def c8f : RightsRecord :=
  { contract := "France", rightsType := none, territory := none
    exclusivity := none, licenseStart := none, licenseEnd := none
    holdbacks := none, musicClearance := none, options := none }

/-- Counterexample to C8 as stated: swapping the first two records changes
the rendered finding from "X ↔ Y (Exclusive overlap in France)" to
"Y ↔ X (Exclusive overlap in FRANCE)", so the record with contract id
"France" flips from CONFLICT to CLEAR under a permutation. -/
theorem c8_counterexample :
    ([c8x, c8y, c8f].Perm [c8y, c8x, c8f]) ∧
      classify [c8x, c8y, c8f] c8f = .CONFLICT ∧
      classify [c8y, c8x, c8f] c8f = .CLEAR :=
  ⟨List.Perm.swap c8y c8x [c8f], by decide, by decide⟩

/-- Witness for the amended C8 at a concrete permutation. -/
theorem c8_perm_findings_witness :
    FindingPair [c8x, c8y, c8f] "X" "Y" ↔ FindingPair [c8y, c8x, c8f] "X" "Y" :=
  c8_perm_findings [c8x, c8y, c8f] [c8y, c8x, c8f]
    (List.Perm.swap c8y c8x [c8f]) "X" "Y"

end ContractIntel
